import Mathlib

set_option maxRecDepth 100000

/-!
Shallow embedding of the two validator scripts of this repository:

* `src/examples/with-validation/validate.py` (the schema validator), and
* `src/test/e2e-fixtures/validate.py` (the keyword validator).

Each script reads the environment variable `AI_LAST_MESSAGE` (absent means
the empty string), checks its content, and prints one line.  The schema
validator parses the message with `json.loads` and checks for the keys
`name`, `description`, `language`; the keyword validator looks for one of a
fixed list of keywords as a case-insensitive substring.

Python strings are modelled as Lean `String`; `str.lower` is modelled by
`Char.toLower` on each character (exact on ASCII, which covers every
keyword), and the whitespace set of `str.strip` is the ASCII whitespace set
of CPython.  `json.loads` is modelled by a fuel-indexed recursive-descent
parser over the character list, faithful to CPython's `json` module on
structure: the same value grammar, the same four whitespace characters, the
`NaN` / `Infinity` / `-Infinity` constants, the `0 | [1-9][0-9]*` integer
part rule, and an error result for anything else.  Error detail strings are
abbreviated (CPython adds line/column positions), which no claim inspects.
-/

/-- JSON values as produced by `json.loads`; numbers keep their lexeme,
since the only operation the scripts apply to them (`in`) ignores the
numeric value. -/
inductive JValue where
  | null
  | bool (b : Bool)
  | num (lexeme : String)
  | str (s : String)
  | arr (elements : List JValue)
  | obj (members : List (String × JValue))
deriving Repr

/-- Whitespace characters recognised by the JSON grammar (CPython json). -/
def jsonWs (c : Char) : Bool :=
  c == ' ' || c == '\t' || c == '\n' || c == '\r'

/-- Whitespace characters stripped by Python `str.strip()` (ASCII part). -/
def pyIsSpace (c : Char) : Bool :=
  c == ' ' || c == '\t' || c == '\n' || c == '\r' || c == '\x0b' || c == '\x0c'

/-- Drop leading JSON whitespace. -/
def skipWs : List Char → List Char
  | c :: cs => if jsonWs c then skipWs cs else c :: cs
  | [] => []

/-- Boolean test that `n` is a leading segment of `h`. -/
def listPre : List Char → List Char → Bool
  | [], _ => true
  | _ :: _, [] => false
  | a :: as, b :: bs => a == b && listPre as bs

/-- Boolean test that `needle` occurs contiguously inside `h`
(Python `needle in h` on strings). -/
def subList (needle : List Char) : List Char → Bool
  | [] => needle.isEmpty
  | c :: cs => listPre needle (c :: cs) || subList needle cs

/-- Python `needle in hay` for strings. -/
def subStr (needle hay : String) : Bool :=
  subList needle.toList hay.toList

/-- Python `s.lower()` (ASCII case mapping). -/
def pyLower (s : String) : String :=
  String.mk (s.toList.map Char.toLower)

/-- Take a maximal run of decimal digits. -/
def takeDigits : List Char → List Char × List Char
  | c :: cs =>
    if c.isDigit then
      let (ds, r) := takeDigits cs
      (c :: ds, r)
    else ([], c :: cs)
  | [] => ([], [])

/-- Value of one hexadecimal digit. -/
def hexVal (c : Char) : Option Nat :=
  if '0' ≤ c ∧ c ≤ '9' then some (c.toNat - '0'.toNat)
  else if 'a' ≤ c ∧ c ≤ 'f' then some (c.toNat - 'a'.toNat + 10)
  else if 'A' ≤ c ∧ c ≤ 'F' then some (c.toNat - 'A'.toNat + 10)
  else none

/-- Parse the body of a JSON string after the opening quote, accumulating
the characters read so far in reverse. -/
def parseStringBody (fuel : Nat) (acc : List Char) (cs : List Char) :
    Except String (String × List Char) :=
  match fuel with
  | 0 => .error "fuel exhausted"
  | fuel + 1 =>
    match cs with
    | [] => .error "Unterminated string"
    | c :: rest =>
      if c == '"' then .ok (String.mk acc.reverse, rest)
      else if c == '\\' then
        match rest with
        | [] => .error "Unterminated string"
        | e :: rest2 =>
          if e == '"' then parseStringBody fuel ('"' :: acc) rest2
          else if e == '\\' then parseStringBody fuel ('\\' :: acc) rest2
          else if e == '/' then parseStringBody fuel ('/' :: acc) rest2
          else if e == 'b' then parseStringBody fuel ('\x08' :: acc) rest2
          else if e == 'f' then parseStringBody fuel ('\x0c' :: acc) rest2
          else if e == 'n' then parseStringBody fuel ('\n' :: acc) rest2
          else if e == 'r' then parseStringBody fuel ('\r' :: acc) rest2
          else if e == 't' then parseStringBody fuel ('\t' :: acc) rest2
          else if e == 'u' then
            match rest2 with
            | h1 :: h2 :: h3 :: h4 :: rest3 =>
              match hexVal h1, hexVal h2, hexVal h3, hexVal h4 with
              | some a, some b, some c2, some d =>
                parseStringBody fuel
                  (Char.ofNat (((a * 16 + b) * 16 + c2) * 16 + d) :: acc) rest3
              | _, _, _, _ => .error "Invalid hex escape"
            | _ => .error "Invalid hex escape"
          else .error "Invalid escape"
      else if c.val < 32 then .error "Invalid control character"
      else parseStringBody fuel (c :: acc) rest

/-- Parse an optional fraction part (`.` followed by at least one digit);
on no match, consume nothing, as CPython's `NUMBER_RE` does. -/
def parseFrac (lex : List Char) (cs : List Char) : List Char × List Char :=
  match cs with
  | '.' :: r =>
    let (ds, r2) := takeDigits r
    if ds.isEmpty then (lex, cs) else (lex ++ '.' :: ds, r2)
  | _ => (lex, cs)

/-- Parse an optional exponent part (`e`/`E`, optional sign, digits);
on no match, consume nothing. -/
def parseExpPart (lex : List Char) (cs : List Char) : List Char × List Char :=
  match cs with
  | e :: r =>
    if e == 'e' || e == 'E' then
      let (sgn, r1) :=
        match r with
        | s :: r1 => if s == '+' || s == '-' then ([s], r1) else (([] : List Char), s :: r1)
        | [] => ([], [])
      let (ds, r2) := takeDigits r1
      if ds.isEmpty then (lex, cs) else (lex ++ e :: (sgn ++ ds), r2)
    else (lex, cs)
  | [] => (lex, cs)

/-- Parse a JSON number starting at `cs` (first char is `-` or a digit).
The integer part follows the `0 | [1-9][0-9]*` rule of CPython. -/
def parseNumber (cs : List Char) : Except String (JValue × List Char) :=
  let (sign, cs1) :=
    match cs with
    | '-' :: r => (['-'], r)
    | _ => (([] : List Char), cs)
  match cs1 with
  | c :: r =>
    if c == '0' then
      let (lex1, r1) := parseFrac (sign ++ ['0']) r
      let (lex2, r2) := parseExpPart lex1 r1
      .ok (.num (String.mk lex2), r2)
    else if c.isDigit then
      let (ds, r0) := takeDigits r
      let (lex1, r1) := parseFrac (sign ++ c :: ds) r0
      let (lex2, r2) := parseExpPart lex1 r1
      .ok (.num (String.mk lex2), r2)
    else .error "Expecting value"
  | [] => .error "Expecting value"

mutual

/-- Parse one JSON value after skipping leading whitespace. -/
def parseValue (fuel : Nat) (cs : List Char) : Except String (JValue × List Char) :=
  match fuel with
  | 0 => .error "fuel exhausted"
  | fuel + 1 =>
    match skipWs cs with
    | [] => .error "Expecting value"
    | c :: rest =>
      if c == '{' then
        match skipWs rest with
        | '}' :: r => .ok (.obj [], r)
        | cs1 => parseMembers fuel [] cs1
      else if c == '[' then
        match skipWs rest with
        | ']' :: r => .ok (.arr [], r)
        | cs1 => parseItems fuel [] cs1
      else if c == '"' then
        match parseStringBody (rest.length + 1) [] rest with
        | .ok (s, r) => .ok (.str s, r)
        | .error e => .error e
      else if c == 't' then
        if listPre ['r', 'u', 'e'] rest then .ok (.bool true, rest.drop 3)
        else .error "Expecting value"
      else if c == 'f' then
        if listPre ['a', 'l', 's', 'e'] rest then .ok (.bool false, rest.drop 4)
        else .error "Expecting value"
      else if c == 'n' then
        if listPre ['u', 'l', 'l'] rest then .ok (.null, rest.drop 3)
        else .error "Expecting value"
      else if c == 'N' then
        if listPre ['a', 'N'] rest then .ok (.num "NaN", rest.drop 2)
        else .error "Expecting value"
      else if c == 'I' then
        if listPre ['n', 'f', 'i', 'n', 'i', 't', 'y'] rest then
          .ok (.num "Infinity", rest.drop 7)
        else .error "Expecting value"
      else if c == '-' && listPre ['I', 'n', 'f', 'i', 'n', 'i', 't', 'y'] rest then
        .ok (.num "-Infinity", rest.drop 8)
      else if c == '-' || c.isDigit then
        parseNumber (c :: rest)
      else .error "Expecting value"

/-- Parse the members of a JSON object, positioned at a property name. -/
def parseMembers (fuel : Nat) (acc : List (String × JValue)) (cs : List Char) :
    Except String (JValue × List Char) :=
  match fuel with
  | 0 => .error "fuel exhausted"
  | fuel + 1 =>
    match cs with
    | '"' :: rest =>
      match parseStringBody (rest.length + 1) [] rest with
      | .error e => .error e
      | .ok (key, r1) =>
        match skipWs r1 with
        | ':' :: r2 =>
          match parseValue fuel r2 with
          | .error e => .error e
          | .ok (v, r3) =>
            match skipWs r3 with
            | ',' :: r4 => parseMembers fuel (acc ++ [(key, v)]) (skipWs r4)
            | '}' :: r4 => .ok (.obj (acc ++ [(key, v)]), r4)
            | _ => .error "Expecting comma delimiter"
        | _ => .error "Expecting colon delimiter"
    | _ => .error "Expecting property name enclosed in double quotes"

/-- Parse the items of a JSON array, positioned at an item. -/
def parseItems (fuel : Nat) (acc : List JValue) (cs : List Char) :
    Except String (JValue × List Char) :=
  match fuel with
  | 0 => .error "fuel exhausted"
  | fuel + 1 =>
    match parseValue fuel cs with
    | .error e => .error e
    | .ok (v, r1) =>
      match skipWs r1 with
      | ',' :: r2 => parseItems fuel (acc ++ [v]) r2
      | ']' :: r2 => .ok (.arr (acc ++ [v]), r2)
      | _ => .error "Expecting comma delimiter"

end

/-- Python `json.loads`: parse one value, then require only trailing
whitespace. -/
def jsonLoads (s : String) : Except String JValue :=
  let cs := s.toList
  match parseValue (2 * cs.length + 4) cs with
  | .error e => .error e
  | .ok (v, rest) =>
    match skipWs rest with
    | [] => .ok v
    | _ => .error "Extra data"

/-- The required fields of the schema validator, in source order. -/
def requiredFields : List String := ["name", "description", "language"]

/-- Containers for which Python `x in data` is defined on the values
`json.loads` can return: dict (key lookup), list (element equality),
str (substring).  On int, float, bool and None, `in` raises `TypeError`. -/
def isContainer : JValue → Bool
  | .obj _ => true
  | .arr _ => true
  | .str _ => true
  | _ => false

/-- Mapping test (Python `dict`). -/
def isMapping : JValue → Bool
  | .obj _ => true
  | _ => false

/-- Python `f == v` where `f` is a string and `v` a value `json.loads` can
return: true exactly on an equal string. -/
def strEqJ (f : String) : JValue → Bool
  | .str s => f == s
  | _ => false

/-- Python `f in data` for the containers among `JValue`, where `f` is a
string: key membership for a dict, element equality for a list, substring
for a str. -/
def pyInB (f : String) (data : JValue) : Bool :=
  match data with
  | .obj kvs => (kvs.map Prod.fst).contains f
  | .arr xs => xs.any (strEqJ f)
  | .str s => subStr f s
  | _ => false

/-- The list comprehension
`[f for f in ("name", "description", "language") if f not in data]`:
it raises `TypeError` when `data` is not a container (the script does not
catch that), and otherwise filters the required fields in order. -/
def pyMissing (data : JValue) : Except Unit (List String) :=
  if isContainer data then .ok (requiredFields.filter fun f => ! pyInB f data)
  else .error ()

/-- Observable outcome of one script run: a printed line with normal exit
status 0, or a crash by an uncaught exception (nonzero exit status). -/
inductive RunResult where
  | out (line : String)
  | typeError
deriving DecidableEq, Repr

/-- Python `not message.strip()`: the message is empty or whitespace-only. -/
def isBlank (s : String) : Bool :=
  s.toList.all pyIsSpace

/-- The schema validator script `src/examples/with-validation/validate.py`
applied to the value of `AI_LAST_MESSAGE`.  Only `json.JSONDecodeError` is
caught; the `TypeError` from the membership test on a non-container
propagates. -/
def schemaValidate (message : String) : RunResult :=
  if isBlank message then .out "No output received from AI"
  else
    match jsonLoads message with
    | .ok data =>
      match pyMissing data with
      | .error _ => .typeError
      | .ok missing =>
        if !missing.isEmpty then
          .out ("Missing required fields: " ++ String.intercalate ", " missing)
        else .out "true"
    | .error e => .out ("Output is not valid JSON: " ++ e)

/-- The schema validator as a whole process: `os.environ.get` yields the
empty string when the variable is absent. -/
def schemaRun (env : Option String) : RunResult :=
  schemaValidate (env.getD "")

/-- The keyword list of `src/test/e2e-fixtures/validate.py`, in source
order. -/
def keywords : List String :=
  ["file", "directory", "hello", "hi", "test", "workflow", ".md", ".py", ".js"]

/-- Observable outcome of one keyword-validator run: the printed line and
the process exit status. -/
structure KwRun where
  output : String
  exitCode : Nat
deriving DecidableEq, Repr

/-- The keyword validator script `src/test/e2e-fixtures/validate.py`
applied to the value of `AI_LAST_MESSAGE`.  Note the emptiness test is
`not last_message` with no strip, and every path exits with status 0. -/
def keywordValidate (last_message : String) : KwRun :=
  if last_message == "" then { output := "No AI response received", exitCode := 0 }
  else if keywords.any (fun kw => subStr (pyLower kw) (pyLower last_message)) then
    { output := "true", exitCode := 0 }
  else
    { output := "Expected keywords but got: " ++ last_message.take 200 ++ "..."
      exitCode := 0 }

/-- The keyword validator as a whole process. -/
def keywordRun (env : Option String) : KwRun :=
  keywordValidate (env.getD "")

/-- Specification-level substring relation: `needle` occurs contiguously in
`hay`. -/
def IsSubstr (needle hay : String) : Prop :=
  ∃ pre post, hay.toList = pre ++ needle.toList ++ post

/-- Specification-level match relation of the keyword validator: some
keyword occurs case-insensitively in the message. -/
def KeywordMatch (msg : String) : Prop :=
  ∃ kw ∈ keywords, IsSubstr (pyLower kw) (pyLower msg)

theorem listPre_iff (n h : List Char) : listPre n h = true ↔ ∃ rest, h = n ++ rest := by
  induction n generalizing h with
  | nil => simp [listPre]
  | cons a as ih =>
    cases h with
    | nil => simp [listPre]
    | cons b bs =>
      simp only [listPre, Bool.and_eq_true, beq_iff_eq, ih, List.cons_append]
      constructor
      · rintro ⟨rfl, rest, rfl⟩; exact ⟨rest, rfl⟩
      · rintro ⟨rest, heq⟩
        injection heq with h1 h2
        exact ⟨h1.symm, rest, h2⟩

theorem subList_iff (n h : List Char) : subList n h = true ↔ ∃ pre post, h = pre ++ n ++ post := by
  induction h with
  | nil =>
    simp only [subList, List.isEmpty_iff]
    constructor
    · rintro rfl; exact ⟨[], [], rfl⟩
    · rintro ⟨pre, post, hp⟩
      rcases List.append_eq_nil.mp (List.append_eq_nil.mp hp.symm).1 with ⟨-, h2⟩
      exact h2
  | cons c cs ih =>
    simp only [subList, Bool.or_eq_true, listPre_iff, ih]
    constructor
    · rintro (⟨rest, heq⟩ | ⟨pre, post, rfl⟩)
      · exact ⟨[], rest, by simpa using heq⟩
      · exact ⟨c :: pre, post, rfl⟩
    · rintro ⟨pre, post, heq⟩
      cases pre with
      | nil => exact Or.inl ⟨post, by simpa using heq⟩
      | cons p ps =>
        right
        injection heq with h1 h2
        exact ⟨ps, post, h2⟩

theorem skipWs_of_all_space {l : List Char} (h : l.all pyIsSpace = true) :
    skipWs l = [] ∨ ∃ rest, skipWs l = '\x0b' :: rest ∨ skipWs l = '\x0c' :: rest := by
  induction l with
  | nil => exact Or.inl rfl
  | cons c cs ih =>
    simp only [List.all_cons, Bool.and_eq_true] at h
    obtain ⟨hc, hcs⟩ := h
    by_cases hw : jsonWs c = true
    · simpa [skipWs, hw] using ih hcs
    · have hcc : c = '\x0b' ∨ c = '\x0c' := by
        simp only [pyIsSpace, Bool.or_eq_true, beq_iff_eq] at hc
        simp only [jsonWs, Bool.or_eq_true, beq_iff_eq] at hw
        push_neg at hw
        rcases hc with h|h|h|h|h|h <;> simp_all
      refine Or.inr ⟨cs, ?_⟩
      rcases hcc with rfl | rfl
      · exact Or.inl (by simp [skipWs, jsonWs])
      · exact Or.inr (by simp [skipWs, jsonWs])

theorem parseValue_blank (fuel : Nat) {cs : List Char} (h : cs.all pyIsSpace = true) :
    ∃ e, parseValue fuel cs = .error e := by
  cases fuel with
  | zero => exact ⟨"fuel exhausted", rfl⟩
  | succ fuel =>
    rcases skipWs_of_all_space h with hskip | ⟨rest, hskip | hskip⟩
    · exact ⟨"Expecting value", by rw [parseValue, hskip]⟩
    · refine ⟨"Expecting value", ?_⟩
      rw [parseValue, hskip]
      simp +decide
    · refine ⟨"Expecting value", ?_⟩
      rw [parseValue, hskip]
      simp +decide

theorem jsonLoads_blank {s : String} (h : isBlank s = true) : ∃ e, jsonLoads s = .error e := by
  obtain ⟨e, he⟩ := parseValue_blank (2 * s.toList.length + 4) (h : s.toList.all pyIsSpace = true)
  exact ⟨e, by rw [jsonLoads]; rw [he]⟩

theorem isBlank_eq_false_of_ok {s : String} {v : JValue} (h : jsonLoads s = .ok v) :
    isBlank s = false := by
  cases hb : isBlank s with
  | false => rfl
  | true => obtain ⟨e, he⟩ := jsonLoads_blank hb; rw [h] at he; exact absurd he (by simp)

theorem schemaValidate_blank {msg : String} (h : isBlank msg = true) :
    schemaValidate msg = .out "No output received from AI" := by
  simp [schemaValidate, h]

theorem schemaValidate_parse_error {msg : String} {e : String}
    (hb : isBlank msg = false) (he : jsonLoads msg = .error e) :
    schemaValidate msg = .out ("Output is not valid JSON: " ++ e) := by
  simp [schemaValidate, hb, he]

theorem schemaValidate_ok {msg : String} {data : JValue} {missing : List String}
    (hp : jsonLoads msg = .ok data) (hm : pyMissing data = .ok missing) :
    schemaValidate msg =
      if !missing.isEmpty then
        .out ("Missing required fields: " ++ String.intercalate ", " missing)
      else .out "true" := by
  simp [schemaValidate, isBlank_eq_false_of_ok hp, hp, hm]

theorem schemaValidate_crash {msg : String} {data : JValue}
    (hp : jsonLoads msg = .ok data) (hm : pyMissing data = .error ()) :
    schemaValidate msg = .typeError := by
  simp [schemaValidate, isBlank_eq_false_of_ok hp, hp, hm]

theorem pyMissing_ok {data : JValue} {missing : List String}
    (hm : pyMissing data = .ok missing) :
    isContainer data = true ∧ missing = requiredFields.filter fun f => ! pyInB f data := by
  cases hc : isContainer data with
  | true => rw [pyMissing, if_pos hc] at hm; exact ⟨rfl, (Except.ok.inj hm).symm⟩
  | false => rw [pyMissing, if_neg (by simp [hc])] at hm; exact absurd hm (by simp)

theorem pyMissing_err {data : JValue} (hc : isContainer data = false) :
    pyMissing data = .error () := by
  rw [pyMissing, if_neg (by simp [hc])]

theorem pyLower_toList (s : String) : (pyLower s).toList = s.toList.map Char.toLower := rfl

theorem keywordAny_iff (msg : String) :
    (keywords.any fun kw => subStr (pyLower kw) (pyLower msg)) = true ↔ KeywordMatch msg := by
  simp only [List.any_eq_true, KeywordMatch, IsSubstr, subStr, subList_iff]

theorem toLower_of_space {c : Char} (h : pyIsSpace c = true) : c.toLower = c := by
  simp only [pyIsSpace, Bool.or_eq_true, beq_iff_eq] at h
  rcases h with ((((h|h)|h)|h)|h)|h <;> subst h <;> decide

theorem no_keyword_in_blank (msg : String) (h : msg.toList.all pyIsSpace = true) :
    (keywords.any fun kw => subStr (pyLower kw) (pyLower msg)) = false := by
  rw [List.any_eq_false]
  intro kw hkw hsub
  obtain ⟨pre, post, hsplit⟩ := (subList_iff _ _).mp hsub
  have hnc : ∃ c ∈ (pyLower kw).toList, pyIsSpace c = false := by
    have : ∀ k ∈ keywords, ∃ c ∈ (pyLower k).toList, pyIsSpace c = false := by decide
    exact this kw hkw
  obtain ⟨c, hcmem, hcns⟩ := hnc
  have hcm : c ∈ (pyLower msg).toList := by
    rw [hsplit]
    exact List.mem_append.mpr (Or.inl (List.mem_append.mpr (Or.inr hcmem)))
  rw [pyLower_toList] at hcm
  obtain ⟨c0, hc0, hlow⟩ := List.mem_map.mp hcm
  have hsp : pyIsSpace c0 = true := by
    rw [List.all_eq_true] at h; exact h c0 hc0
  rw [toLower_of_space hsp] at hlow
  rw [hlow] at hsp
  rw [hsp] at hcns
  exact absurd hcns (by decide)

/-- C1 (counterexample): with `AI_LAST_MESSAGE` set to `5`, the message
parses as a JSON number, the membership test `"name" in 5` raises an
uncaught `TypeError`, and the schema validator crashes instead of printing
a line and exiting with status zero. -/
theorem schema_validator_crashes_on_number :
    schemaRun (some "5") = RunResult.typeError := rfl

/-- C1 (amended): for every value of `AI_LAST_MESSAGE`, the schema
validator either terminates normally with exactly one output line, or the
message parses to a non-container JSON value (number, boolean or null) and
the validator crashes with an uncaught `TypeError`; errors are handled
locally in all other cases. -/
theorem schema_validator_output_or_crash (env : Option String) :
    (∃ line, schemaRun env = RunResult.out line) ∨
    (∃ data, jsonLoads (env.getD "") = .ok data ∧ isContainer data = false ∧
      schemaRun env = RunResult.typeError) := by
  simp only [schemaRun]
  cases hb : isBlank (env.getD "") with
  | true => exact Or.inl ⟨_, schemaValidate_blank hb⟩
  | false =>
    cases hp : jsonLoads (env.getD "") with
    | error e => exact Or.inl ⟨_, schemaValidate_parse_error hb hp⟩
    | ok data =>
      cases hc : isContainer data with
      | false => exact Or.inr ⟨data, rfl, hc, schemaValidate_crash hp (pyMissing_err hc)⟩
      | true =>
        have hm : pyMissing data = .ok (requiredFields.filter fun f => ! pyInB f data) := by
          rw [pyMissing, if_pos hc]
        cases hemp : (requiredFields.filter fun f => ! pyInB f data).isEmpty with
        | true => exact Or.inl ⟨"true", by rw [schemaValidate_ok hp hm, hemp]; rfl⟩
        | false => exact Or.inl ⟨_, by rw [schemaValidate_ok hp hm, hemp]; rfl⟩

/-- C2: for every non-empty message, the keyword validator prints exactly
`true` if and only if some keyword of the fixed list occurs
case-insensitively in the message, and otherwise prints
`Expected keywords but got: ` followed by the first 200 characters and
`...`, exiting with status zero either way. -/
theorem keyword_validator_match_iff (msg : String) (h : msg ≠ "") :
    ((keywordValidate msg).output = "true" ↔ KeywordMatch msg) ∧
    (¬ KeywordMatch msg →
      keywordValidate msg =
        { output := "Expected keywords but got: " ++ msg.take 200 ++ "..."
          exitCode := 0 }) := by
  cases hany : (keywords.any fun kw => subStr (pyLower kw) (pyLower msg)) with
  | true =>
    have hkm : KeywordMatch msg := (keywordAny_iff msg).mp hany
    have hout : keywordValidate msg = { output := "true", exitCode := 0 } := by
      rw [keywordValidate, if_neg (by simp [h]), if_pos hany]
    exact ⟨by rw [hout]; exact ⟨fun _ => hkm, fun _ => rfl⟩, fun hn => absurd hkm hn⟩
  | false =>
    have hkm : ¬ KeywordMatch msg := fun hk => by
      rw [(keywordAny_iff msg).mpr hk] at hany
      exact absurd hany (by decide)
    have hout : keywordValidate msg =
        { output := "Expected keywords but got: " ++ msg.take 200 ++ "..."
          exitCode := 0 } := by
      rw [keywordValidate, if_neg (by simp [h]), if_neg (by simp [hany])]
    refine ⟨?_, fun _ => hout⟩
    rw [hout]
    constructor
    · intro heq
      exfalso
      have hlen := congrArg String.length heq
      rw [String.length_append, String.length_append] at hlen
      have h1 : ("Expected keywords but got: " : String).length = 27 := rfl
      have h2 : ("..." : String).length = 3 := rfl
      have h3 : ("true" : String).length = 4 := rfl
      omega
    · intro hk
      exact absurd hk hkm

/-- C2 (witness): the message `hi` is non-empty, matches the keyword `hi`,
and the keyword validator prints `true` on it. -/
theorem keyword_validator_match_iff_witness :
    ("hi" : String) ≠ "" ∧ (keywordValidate "hi").output = "true" ∧ KeywordMatch "hi" := by
  have h : ("hi" : String) ≠ "" := by decide
  have hkm : KeywordMatch "hi" := ⟨"hi", by decide, [], [], by decide⟩
  exact ⟨h, (keyword_validator_match_iff "hi" h).1.mpr hkm, hkm⟩

/-- C3: whenever the message parses as JSON and the membership checks find
at least one of the required fields absent, the schema validator prints
`Missing required fields: ` followed by exactly the missing keys, comma
separated, in the fixed order `name, description, language`. -/
theorem schema_validator_missing_fields (msg : String) (data : JValue)
    (missing : List String) (hp : jsonLoads msg = .ok data)
    (hm : pyMissing data = .ok missing) (hne : missing ≠ []) :
    schemaValidate msg =
      .out ("Missing required fields: " ++ String.intercalate ", " missing) ∧
    missing.Sublist requiredFields ∧
    ∀ f, f ∈ missing ↔ f ∈ requiredFields ∧ pyInB f data = false := by
  obtain ⟨hc, hfil⟩ := pyMissing_ok hm
  have hemp : missing.isEmpty = false := by
    cases missing with
    | nil => exact absurd rfl hne
    | cons a as => rfl
  refine ⟨?_, ?_, ?_⟩
  · rw [schemaValidate_ok hp hm, hemp]
    rfl
  · rw [hfil]
    exact List.filter_sublist _
  · intro f
    rw [hfil, List.mem_filter]
    simp only [Bool.not_eq_true']

/-- C3 (witness): on input with only the field `name`, the output lists
`description` and `language` in the fixed order. -/
theorem schema_validator_missing_fields_witness :
    jsonLoads "\x7b\"name\":\"a\"\x7d" = .ok (.obj [("name", .str "a")]) ∧
    pyMissing (.obj [("name", .str "a")]) = .ok ["description", "language"] ∧
    (["description", "language"] : List String) ≠ [] ∧
    schemaValidate "\x7b\"name\":\"a\"\x7d" =
      .out "Missing required fields: description, language" :=
  ⟨rfl, rfl, by decide,
    (schema_validator_missing_fields "\x7b\"name\":\"a\"\x7d" (.obj [("name", .str "a")])
      ["description", "language"] rfl rfl (by decide)).1⟩

/-- C4: whenever the message parses as a JSON object whose keys include
`name`, `description` and `language`, the schema validator prints exactly
`true`. -/
theorem schema_validator_all_present (msg : String) (kvs : List (String × JValue))
    (hp : jsonLoads msg = .ok (.obj kvs))
    (hall : ∀ f ∈ requiredFields, f ∈ kvs.map Prod.fst) :
    schemaValidate msg = .out "true" := by
  have hm : pyMissing (.obj kvs) =
      .ok (requiredFields.filter fun f => ! pyInB f (.obj kvs)) := rfl
  have hfil : (requiredFields.filter fun f => ! pyInB f (JValue.obj kvs)) = [] := by
    rw [List.filter_eq_nil_iff]
    intro f hf
    simp only [pyInB, Bool.not_eq_true', Bool.not_eq_false]
    exact List.elem_eq_true_of_mem (hall f hf)
  rw [schemaValidate_ok hp hm, hfil]
  rfl

/-- C4 (witness): the spec example with all three fields present prints
exactly `true`. -/
theorem schema_validator_all_present_witness :
    jsonLoads "\x7b\"name\":\"a\",\"description\":\"b\",\"language\":\"c\"\x7d" =
      .ok (.obj [("name", .str "a"), ("description", .str "b"), ("language", .str "c")]) ∧
    schemaValidate "\x7b\"name\":\"a\",\"description\":\"b\",\"language\":\"c\"\x7d" = .out "true" :=
  ⟨rfl, schema_validator_all_present "\x7b\"name\":\"a\",\"description\":\"b\",\"language\":\"c\"\x7d"
    [("name", .str "a"), ("description", .str "b"), ("language", .str "c")] rfl (by decide)⟩

/-- C5: whenever the message is neither empty nor whitespace-only and fails
to parse as JSON, the schema validator prints `Output is not valid JSON: `
followed by the parser error detail. -/
theorem schema_validator_invalid_json (msg e : String)
    (hb : isBlank msg = false) (he : jsonLoads msg = .error e) :
    schemaValidate msg = .out ("Output is not valid JSON: " ++ e) :=
  schemaValidate_parse_error hb he

/-- C5 (witness): the input `not json` is not blank, fails to parse, and
the output starts with `Output is not valid JSON:`. -/
theorem schema_validator_invalid_json_witness :
    isBlank "not json" = false ∧ jsonLoads "not json" = .error "Expecting value" ∧
    schemaValidate "not json" = .out ("Output is not valid JSON: " ++ "Expecting value") :=
  ⟨by decide, rfl,
    schema_validator_invalid_json "not json" "Expecting value" (by decide) rfl⟩

/-- C6: whenever the message is empty or whitespace-only, the schema
validator prints exactly `No output received from AI` (the guard precedes
the parse in the script, so no parse is attempted). -/
theorem schema_validator_blank_input (msg : String) (h : isBlank msg = true) :
    schemaValidate msg = .out "No output received from AI" :=
  schemaValidate_blank h

/-- C6 (witness): the empty message prints `No output received from AI`. -/
theorem schema_validator_blank_input_witness :
    isBlank "" = true ∧ schemaValidate "" = .out "No output received from AI" :=
  ⟨rfl, schema_validator_blank_input "" rfl⟩

/-- C7: whenever the message is empty, in particular when the environment
variable is absent, the keyword validator prints exactly
`No AI response received` and exits with status zero. -/
theorem keyword_validator_empty_input (env : Option String) (h : env.getD "" = "") :
    keywordRun env = { output := "No AI response received", exitCode := 0 } := by
  rw [keywordRun, h]
  rfl

/-- C7 (witness): with the environment variable absent, the keyword
validator prints `No AI response received` and exits with status zero. -/
theorem keyword_validator_empty_input_witness :
    (none : Option String).getD "" = "" ∧
    keywordRun none = { output := "No AI response received", exitCode := 0 } :=
  ⟨rfl, keyword_validator_empty_input none rfl⟩

/-- C8: both validators are deterministic functions of the environment
variable: equal values of `AI_LAST_MESSAGE` give equal outcomes. -/
theorem validators_deterministic (env1 env2 : Option String) (h : env1 = env2) :
    schemaRun env1 = schemaRun env2 ∧ keywordRun env1 = keywordRun env2 := by
  subst h
  exact ⟨rfl, rfl⟩

/-- C8 (witness): two runs on the same concrete value agree. -/
theorem validators_deterministic_witness :
    (some "abc" : Option String) = some "abc" ∧
    schemaRun (some "abc") = schemaRun (some "abc") ∧
    keywordRun (some "abc") = keywordRun (some "abc") :=
  ⟨rfl, (validators_deterministic (some "abc") (some "abc") rfl).1,
    (validators_deterministic (some "abc") (some "abc") rfl).2⟩

/-- C9: the schema validator applies the membership check to whatever
`json.loads` returns, not only to mappings: the JSON array
`["name", "description", "language"]` and the JSON string
`"name description language"` both print `true` although neither is a
mapping. -/
theorem schema_validator_non_mapping_true :
    jsonLoads "[\"name\", \"description\", \"language\"]" =
      .ok (.arr [.str "name", .str "description", .str "language"]) ∧
    isMapping (JValue.arr [.str "name", .str "description", .str "language"]) = false ∧
    schemaValidate "[\"name\", \"description\", \"language\"]" = .out "true" ∧
    jsonLoads "\"name description language\"" = .ok (.str "name description language") ∧
    isMapping (JValue.str "name description language") = false ∧
    schemaValidate "\"name description language\"" = .out "true" :=
  ⟨rfl, rfl, rfl, rfl, rfl, rfl⟩

/-- C10: the keyword validator does not strip whitespace before its
emptiness test: a whitespace-only message takes the keyword-search branch
and prints the failure line, while the schema validator, which does strip,
prints its empty-input line on the same message. -/
theorem keyword_validator_whitespace_not_empty (msg : String)
    (h1 : msg ≠ "") (h2 : msg.toList.all pyIsSpace = true) :
    keywordValidate msg =
      { output := "Expected keywords but got: " ++ msg.take 200 ++ "..."
        exitCode := 0 } ∧
    schemaValidate msg = .out "No output received from AI" := by
  have hany := no_keyword_in_blank msg h2
  constructor
  · rw [keywordValidate, if_neg (by simp [h1]), if_neg (by simp [hany])]
  · exact schemaValidate_blank h2

/-- C10 (witness): a single-space message is non-empty for the keyword
validator and blank for the schema validator. -/
theorem keyword_validator_whitespace_not_empty_witness :
    (" " : String) ≠ "" ∧ (" " : String).toList.all pyIsSpace = true ∧
    keywordValidate " " =
      { output := "Expected keywords but got:  ...", exitCode := 0 } ∧
    schemaValidate " " = .out "No output received from AI" := by
  have h1 : (" " : String) ≠ "" := by decide
  have h2 : (" " : String).toList.all pyIsSpace = true := by decide
  obtain ⟨ha, hb⟩ := keyword_validator_whitespace_not_empty " " h1 h2
  exact ⟨h1, h2, ha, hb⟩
